import Mathlib

set_option maxRecDepth 8000

/-!
Verification of the schema-catalog subsystem of the repository: the
database descriptor builder pipeline (pkg/sql/catalog/dbdesc) and the
TRUNCATE mutation-safety classifier exercised by
pkg/sql/tests/truncate_test.go.
-/

namespace Truncate

/-- Modelled from the spec: the classifier and its mutation model
(pkg/sql/truncate.go, pkg/sql/catalog/descpb) are not under src/, only the
test truncate_test.go is. Direction of a pending mutation: ADD or DROP. -/
inductive Direction where
  | add
  | drop
deriving DecidableEq, Repr

/-- Modelled from the spec: non-terminal progress states of a queued
mutation (DELETE_ONLY, WRITE_ONLY, BACKFILLING, with the DROP mirror
reusing them). Terminal mutations (PUBLIC, or fully removed) no longer sit
in the queue. -/
inductive MutationState where
  | deleteOnly
  | writeOnly
  | backfilling
deriving DecidableEq, Repr

/-- Modelled from the spec: the kind of a constraint under change. The
PRIMARY_KEY case is a separate mutation element (a primary key swap). -/
inductive ConstraintKind where
  | check
  | foreignKey
deriving DecidableEq, Repr

/-- Modelled from the spec: the element a mutation operates on. A column
records its dependency edges to other catalog objects: sequences backing
its default value, sequences it owns, and other objects it depends on
(for instance a user-defined type). A constraint records whether the
mutation is a validation step and, for a foreign key, whether it
references its own table. -/
inductive Element where
  | index (indexName : String)
  | column (columnName : String)
      (usesSequenceIDs ownsSequenceIDs dependsOnIDs : List Nat)
  | constraint (constraintName : String) (kind : ConstraintKind)
      (validating : Bool) (selfReferencing : Bool)
  | primaryKeySwap
deriving DecidableEq, Repr

/-- Modelled from the spec: an ordered entry in a table descriptor's
mutation queue, with its direction, element, progress state and owning
job. -/
structure Mutation where
  direction : Direction
  element : Element
  state : MutationState
  jobID : Nat
deriving DecidableEq, Repr

/-- Modelled from the spec: the reason category attached to a Reject
decision. Each category carries exactly the identifying object name it
needs; the table name is supplied when the message is rendered. -/
inductive RejectReason where
  | indexesBeingDropped
  | droppedColumnDependsOnObject (columnName : String)
  | ongoingPrimaryKeyChange
  | ongoingConstraintChange (kind : ConstraintKind)
deriving DecidableEq, Repr

/-- Modelled from the spec: error classes distinguished by the spec:
"unsupported configuration" (unimplemented) versus data-correctness
(internal/corruption) faults. -/
inductive ErrorClass where
  | unimplemented
  | internalFault
deriving DecidableEq, Repr

/-- Every classifier rejection is surfaced in the unimplemented
("unsupported configuration") class, per the test's expected
"unimplemented: ..." errors. -/
def rejectClass (_ : RejectReason) : ErrorClass := .unimplemented

def constraintKindName : ConstraintKind → String
  | .check => "CHECK"
  | .foreignKey => "FOREIGN_KEY"

/-- Modelled from the spec: the rejection message, interpolating the table
name and, where applicable, the blocking object name. The anchors are the
expected error strings of truncate_test.go. -/
def errorMessage (tableName : String) : RejectReason → String
  | .indexesBeingDropped =>
      "cannot perform TRUNCATE on \"" ++ tableName ++
        "\" which has indexes being dropped"
  | .droppedColumnDependsOnObject columnName =>
      "cannot perform TRUNCATE on \"" ++ tableName ++
        "\" which has a column (\"" ++ columnName ++
        "\") being dropped which depends on another object"
  | .ongoingPrimaryKeyChange =>
      "cannot perform TRUNCATE on \"" ++ tableName ++
        "\" which has an ongoing primary key change"
  | .ongoingConstraintChange kind =>
      "cannot perform TRUNCATE on \"" ++ tableName ++
        "\" which has an ongoing " ++ constraintKindName kind ++
        " constraint change"

/-- Modelled from the spec: per-mutation safety classification, following
the decision table of spec section 4.2: index drops, column drops with a
cross-object dependency other than an owned sequence, primary key swaps
and any check or foreign-key constraint change are rejected; every other
mutation is allowed. `none` means Allow. -/
def classifyMutation (m : Mutation) : Option RejectReason :=
  match m.element with
  | .index _ =>
      if m.direction = .drop then some .indexesBeingDropped else none
  | .column columnName _ _ dependsOnIDs =>
      if m.direction = .drop ∧ dependsOnIDs ≠ [] then
        some (.droppedColumnDependsOnObject columnName)
      else none
  | .constraint _ kind _ _ => some (.ongoingConstraintChange kind)
  | .primaryKeySwap => some .ongoingPrimaryKeyChange

/-- Modelled from the spec: classification of a whole mutation queue for a
pending TRUNCATE; scans the queue in order and short-circuits on the first
disqualifying mutation. -/
def checkTableForDisallowedMutations (queue : List Mutation) :
    Option RejectReason :=
  queue.findSome? classifyMutation

/-- Modelled from the spec: the status of a schema-change job. -/
inductive JobStatus where
  | pending
  | running
  | paused
  | succeeded
  | failed
deriving DecidableEq, Repr

/-- Modelled from the spec: a schema-change job record. -/
structure Job where
  id : Nat
  status : JobStatus
deriving DecidableEq, Repr

/-- Modelled from the spec: the table state a TRUNCATE acts on: its name,
row count, physical storage identity (generation), the descriptor's
mutation queue and the jobs driving it. -/
structure TableState where
  name : String
  rows : Nat
  generation : Nat
  mutations : List Mutation
  jobs : List Job
deriving DecidableEq, Repr

/-- Modelled from the spec: executing a TRUNCATE: classify the mutation
queue; on rejection return the reason and leave the state untouched; on
success reset the rows and swap the storage identity, leaving the queued
mutations and their jobs in place. -/
def truncateTable (st : TableState) : Option RejectReason × TableState :=
  match checkTableForDisallowedMutations st.mutations with
  | some r => (some r, st)
  | none => (none, { st with rows := 0, generation := st.generation + 1 })

/-- Modelled from the spec: a released job completing normally: the first
queued mutation reaches its terminal state and leaves the queue, and its
owning job succeeds. -/
def completeFirstMutation (st : TableState) : TableState :=
  match st.mutations with
  | [] => st
  | m :: rest =>
      { st with
        mutations := rest,
        jobs := st.jobs.map fun j =>
          if j.id = m.jobID then { j with status := .succeeded } else j }

end Truncate

namespace Dbdesc

/-- Modelled from the spec: a user entry of a descpb.PrivilegeDescriptor
(descpb is not under src/): the user name, its privilege bitmask and its
grant-option bitmask. -/
structure UserPrivileges where
  userProto : String
  privileges : Nat
  withGrantOption : Nat
deriving DecidableEq, Repr, Inhabited

/-- Modelled from the spec: descpb.PrivilegeDescriptor (not under src/):
the ordered user entries, the owner and the format version. -/
structure PrivilegeDescriptor where
  users : List UserPrivileges
  ownerProto : String
  version : Nat
deriving DecidableEq, Repr, Inhabited

/-- Modelled from the spec: descpb.DefaultPrivilegeDescriptor (not under
src/), reduced to its type tag (DATABASE or SCHEMA). -/
structure DefaultPrivilegeDescriptor where
  privType : Nat
deriving DecidableEq, Repr, Inhabited

/-- descpb.DatabaseDescriptor_SchemaInfo: a schema id and a dropped
flag. -/
structure SchemaInfo where
  id : Nat
  dropped : Bool
deriving DecidableEq, Repr, Inhabited

/-- descpb.DatabaseDescriptor_RegionConfig as set by
MaybeWithDatabaseRegionConfig in database_desc_builder.go: survival goal,
primary region, region enum id and placement. -/
structure RegionConfig where
  survivalGoal : Nat
  primaryRegion : String
  regionEnumID : Nat
  placement : Nat
deriving DecidableEq, Repr, Inhabited

/-- descpb.DatabaseDescriptor, restricted to the fields the builder in
database_desc_builder.go reads or writes: name, id, version, the two
privilege records, the schemas map (as an association list) and the
optional region config. -/
structure DatabaseDescriptor where
  name : String
  id : Nat
  version : Nat
  privileges : Option PrivilegeDescriptor
  defaultPrivileges : Option DefaultPrivilegeDescriptor
  schemas : List (String × SchemaInfo)
  regionConfig : Option RegionConfig
deriving DecidableEq, Repr, Inhabited

/-- Modelled from the spec: the full privilege bitmask (the concrete bit
layout of privilege.ALL is not under src/). -/
def allPrivileges : Nat := 511

/-- Modelled from the spec: normalization of one user entry: the
superusers always end up holding every privilege. -/
def fixSuperUser (u : UserPrivileges) : UserPrivileges :=
  if u.userProto = "root" ∨ u.userProto = "admin" then
    { u with privileges := allPrivileges }
  else u

/-- Modelled from the spec: catprivilege.MaybeFixPrivileges is not under
src/; the spec describes the fixup pass as "normalizing privilege
records". Modelled as normalizing every user entry, reporting whether
that changed the record. -/
def maybeFixPrivileges : Option PrivilegeDescriptor →
    Option PrivilegeDescriptor × Bool
  | none => (none, false)
  | some pd =>
      let fixed : PrivilegeDescriptor := { pd with users := pd.users.map fixSuperUser }
      (some fixed, decide (fixed ≠ pd))

/-- Modelled from the spec: maybeRemoveDroppedSelfEntryFromSchemas lives
in dbdesc (database_desc.go), not under src/; the spec describes it as
"removing dangling self-references left by prior drops". Modelled as
deleting every schemas entry that carries the database's own id and is
marked dropped, reporting whether an entry was removed. -/
def maybeRemoveDroppedSelfEntryFromSchemas (d : DatabaseDescriptor) :
    DatabaseDescriptor × Bool :=
  let kept := d.schemas.filter fun e => !(e.2.id == d.id && e.2.dropped)
  ({ d with schemas := kept }, decide (kept ≠ d.schemas))

/-- The builder state of databaseDescriptorBuilder: the cloned original,
the possibly fixed-up working copy, and the changed flag. protoutil.Clone
is a deep copy, so a clone is simply the descriptor value in this
model. -/
structure Builder where
  original : DatabaseDescriptor
  maybeModified : Option DatabaseDescriptor
  changed : Bool
deriving DecidableEq, Repr

/-- NewBuilder from database_desc_builder.go: store a clone of the
argument; maybeModified starts out nil and changed false. -/
def NewBuilder (desc : DatabaseDescriptor) : Builder :=
  { original := desc, maybeModified := none, changed := false }

/-- RunPostDeserializationChanges from database_desc_builder.go: clone the
original into maybeModified, fix its privileges, remove a dropped self
entry from its schemas map, and record whether either step changed
anything. -/
def RunPostDeserializationChanges (b : Builder) : Builder :=
  let maybeModified := b.original
  let p := maybeFixPrivileges maybeModified.privileges
  let m1 := { maybeModified with privileges := p.1 }
  let s := maybeRemoveDroppedSelfEntryFromSchemas m1
  { b with maybeModified := some s.1, changed := p.2 || s.2 }

/-- The fixup pass as a plain function on descriptors: the descriptor
RunPostDeserializationChanges stores into maybeModified, paired with the
changed flag it records. -/
def postDeserialization (d : DatabaseDescriptor) : DatabaseDescriptor × Bool :=
  let p := maybeFixPrivileges d.privileges
  let s := maybeRemoveDroppedSelfEntryFromSchemas { d with privileges := p.1 }
  (s.1, p.2 || s.2)

/-- Modelled from the spec: catalog.MigrationWorkFunc (not under src/),
modelled as fallible per the spec's migration-error taxonomy: a work
function transforms the builder and may report an error. -/
def MigrationWorkFunc : Type :=
  Builder → Builder × Option String

/-- RunMigrationChanges from database_desc_builder.go: applies every work
function in order and returns nil; the loop never consults a work
function's result and has no early exit. -/
def RunMigrationChanges (b : Builder) (workFuncs : List MigrationWorkFunc) :
    Builder × Option String :=
  (workFuncs.foldl (fun ddb applyChange => (applyChange ddb).1) b, none)

/-- The Mutable view: the embedded immutable descriptor state, the
ClusterVersion baseline and the changed flag. The Go immutable wrapper
adds no data beyond the embedded DatabaseDescriptor, so an immutable view
is a descriptor value here. -/
structure Mutable where
  desc : DatabaseDescriptor
  ClusterVersion : Option DatabaseDescriptor
  changed : Bool
deriving DecidableEq, Repr

/-- BuildImmutableDatabase from database_desc_builder.go: the working copy
when one exists, else the original. -/
def BuildImmutableDatabase (b : Builder) : DatabaseDescriptor :=
  b.maybeModified.getD b.original

/-- BuildExistingMutableDatabase from database_desc_builder.go: populate
maybeModified with a clone of the original if still nil, then return a
Mutable over the working copy whose ClusterVersion is the original clone.
The Go method mutates the receiver, so the updated builder is returned
alongside. -/
def BuildExistingMutableDatabase (b : Builder) : Mutable × Builder :=
  let m := b.maybeModified.getD b.original
  ({ desc := m, ClusterVersion := some b.original, changed := b.changed },
   { b with maybeModified := some m })

/-- BuildCreatedMutableDatabase from database_desc_builder.go: a Mutable
over the working copy (or original) with no ClusterVersion baseline. -/
def BuildCreatedMutableDatabase (b : Builder) : Mutable :=
  { desc := b.maybeModified.getD b.original,
    ClusterVersion := none, changed := b.changed }

/-- Modelled from the spec: one user-entry step of
catprivilege.MaybeUpdateGrantOptions (not under src/): a holder of every
privilege is given the matching grant options. -/
def updateGrantOption (u : UserPrivileges) : UserPrivileges :=
  if u.privileges = allPrivileges then
    { u with withGrantOption := allPrivileges }
  else u

/-- Modelled from the spec: catprivilege.MaybeUpdateGrantOptions (not
under src/): update every user entry, reporting whether anything
changed. -/
def maybeUpdateGrantOptions : Option PrivilegeDescriptor →
    Option PrivilegeDescriptor × Bool
  | none => (none, false)
  | some pd =>
      let upd : PrivilegeDescriptor := { pd with users := pd.users.map updateGrantOption }
      (some upd, decide (upd ≠ pd))

/-- MaybeAddGrantOptionsDatabase from database_desc_builder.go: re-clone
the original into maybeModified, update its grant options, and overwrite
the changed flag with whether grant options changed. Packaged as a
MigrationWorkFunc that reports no error. -/
def MaybeAddGrantOptionsDatabase (b : Builder) : Builder × Option String :=
  let maybeModified := b.original
  let p := maybeUpdateGrantOptions maybeModified.privileges
  ({ b with
      maybeModified := some { maybeModified with privileges := p.1 },
      changed := p.2 },
   none)

/-- keys.PublicSchemaID (not under src/, a fixed cluster constant). -/
def keysPublicSchemaID : Nat := 29

/-- The NewInitialOption values defined in database_desc_builder.go:
MaybeWithDatabaseRegionConfig and WithPublicSchemaID. -/
inductive NewInitialOption where
  | maybeWithDatabaseRegionConfig (regionConfig : Option RegionConfig)
  | withPublicSchemaID (publicSchemaID : Nat)
deriving DecidableEq, Repr

/-- Application of one NewInitialOption, following the two option
constructors of database_desc_builder.go: a nil region config is a no-op;
a public schema id equal to keys.PublicSchemaID adds no schemas entry. -/
def applyNewInitialOption (d : DatabaseDescriptor) :
    NewInitialOption → DatabaseDescriptor
  | .maybeWithDatabaseRegionConfig none => d
  | .maybeWithDatabaseRegionConfig (some rc) => { d with regionConfig := some rc }
  | .withPublicSchemaID sid =>
      if sid = keysPublicSchemaID then d
      else { d with schemas := [("public", { id := sid, dropped := false })] }

/-- Modelled from the spec: descpb.NewBaseDatabasePrivilegeDescriptor
(not under src/): the default privilege record of a new database, owned by
the given user, with the superusers holding every privilege. -/
def NewBaseDatabasePrivilegeDescriptor (owner : String) : PrivilegeDescriptor :=
  { users :=
      [ { userProto := "admin", privileges := allPrivileges,
          withGrantOption := allPrivileges },
        { userProto := "root", privileges := allPrivileges,
          withGrantOption := allPrivileges } ],
    ownerProto := owner, version := 2 }

/-- Modelled from the spec:
catprivilege.MakeDefaultPrivilegeDescriptor (not under src/), reduced to
its type tag. -/
def MakeDefaultPrivilegeDescriptor (privType : Nat) : DefaultPrivilegeDescriptor :=
  { privType := privType }

/-- newInitialWithPrivileges from database_desc_builder.go: build the
initial descriptor at Version 1, apply the options in order, and return
the created-mutable view of a fresh builder. -/
def newInitialWithPrivileges (id : Nat) (name : String)
    (privileges : PrivilegeDescriptor)
    (defaultPrivileges : DefaultPrivilegeDescriptor)
    (options : List NewInitialOption) : Mutable :=
  let ret : DatabaseDescriptor :=
    { name := name, id := id, version := 1,
      privileges := some privileges,
      defaultPrivileges := some defaultPrivileges,
      schemas := [], regionConfig := none }
  BuildCreatedMutableDatabase (NewBuilder (options.foldl applyNewInitialOption ret))

/-- NewInitial from database_desc_builder.go: an initial Mutable with the
default database privileges of the owner. -/
def NewInitial (id : Nat) (name : String) (owner : String)
    (options : List NewInitialOption) : Mutable :=
  newInitialWithPrivileges id name
    (NewBaseDatabasePrivilegeDescriptor owner)
    (MakeDefaultPrivilegeDescriptor 0) options

/-- A deterministic re-encoding of a descriptor; identical descriptors
encode identically. -/
def encode (d : DatabaseDescriptor) : String := reprStr d

end Dbdesc

namespace DbdescHeap

/-! A heap-explicit rendering of the same builder code, used to state the
aliasing discipline: Go pointers become addresses into a heap of
descriptor values, and protoutil.Clone becomes allocation of a fresh cell
holding a copy. The fixup content itself is shared with the value
model. -/

/-- Heap addresses are cell indices (plain naturals). -/
structure Heap where
  cells : List Dbdesc.DatabaseDescriptor
deriving Repr

/-- Dereference an address. -/
def Heap.read (h : Heap) (a : Nat) : Dbdesc.DatabaseDescriptor :=
  h.cells.getD a default

/-- Allocate a fresh cell, returning its address. -/
def Heap.alloc (h : Heap) (d : Dbdesc.DatabaseDescriptor) : Nat × Heap :=
  (h.cells.length, ⟨h.cells ++ [d]⟩)

/-- Overwrite the cell at an address. -/
def Heap.write (h : Heap) (a : Nat) (d : Dbdesc.DatabaseDescriptor) : Heap :=
  ⟨h.cells.set a d⟩

/-- protoutil.Clone: allocate a fresh cell holding a copy of the value at
the argument address. -/
def clone (h : Heap) (a : Nat) : Nat × Heap :=
  h.alloc (h.read a)

/-- databaseDescriptorBuilder with pointer fields. -/
structure Builder where
  original : Nat
  maybeModified : Option Nat
  changed : Bool
deriving DecidableEq, Repr

/-- NewBuilder: store a clone of the caller's descriptor. -/
def NewBuilder (h : Heap) (desc : Nat) : Builder × Heap :=
  let c := clone h desc
  ({ original := c.1, maybeModified := none, changed := false }, c.2)

/-- RunPostDeserializationChanges: clone the original into a fresh
maybeModified cell and apply the fixups in place there. -/
def RunPostDeserializationChanges (h : Heap) (b : Builder) : Builder × Heap :=
  let c := clone h b.original
  let pd := Dbdesc.postDeserialization (c.2.read c.1)
  ({ b with maybeModified := some c.1, changed := pd.2 },
   c.2.write c.1 pd.1)

/-- MaybeAddGrantOptionsDatabase: re-clone the original into a fresh
maybeModified cell and update grant options in place there. -/
def MaybeAddGrantOptionsDatabase (h : Heap) (b : Builder) : Builder × Heap :=
  let c := clone h b.original
  let d0 := c.2.read c.1
  let p := Dbdesc.maybeUpdateGrantOptions d0.privileges
  ({ b with maybeModified := some c.1, changed := p.2 },
   c.2.write c.1 { d0 with privileges := p.1 })

/-- BuildImmutableDatabase: the immutable view copies the descriptor
struct by value out of the builder's cells; the heap is untouched. -/
def BuildImmutableDatabase (h : Heap) (b : Builder) : Dbdesc.DatabaseDescriptor :=
  match b.maybeModified with
  | some m => h.read m
  | none => h.read b.original

/-- BuildExistingMutableDatabase: populate maybeModified with a clone of
the original if still nil, then copy the struct values into the Mutable
view. -/
def BuildExistingMutableDatabase (h : Heap) (b : Builder) :
    Dbdesc.Mutable × Builder × Heap :=
  match b.maybeModified with
  | some m =>
      ({ desc := h.read m, ClusterVersion := some (h.read b.original),
         changed := b.changed }, b, h)
  | none =>
      let c := clone h b.original
      ({ desc := c.2.read c.1, ClusterVersion := some (c.2.read b.original),
         changed := b.changed },
       { b with maybeModified := some c.1 }, c.2)

/-- BuildCreatedMutableDatabase: copy the struct value into a Mutable with
no baseline; the heap is untouched. -/
def BuildCreatedMutableDatabase (h : Heap) (b : Builder) : Dbdesc.Mutable :=
  { desc := BuildImmutableDatabase h b, ClusterVersion := none,
    changed := b.changed }

/-- The whole build pipeline on the heap: construct the builder from the
caller's descriptor, run fixups, run the grant-option migration, and
build the existing-mutable view. -/
def buildPipeline (h : Heap) (desc : Nat) : Dbdesc.Mutable × Builder × Heap :=
  let n := NewBuilder h desc
  let r := RunPostDeserializationChanges n.2 n.1
  let g := MaybeAddGrantOptionsDatabase r.2 r.1
  BuildExistingMutableDatabase g.2 g.1

theorem Heap.read_alloc (h : Heap) (d : Dbdesc.DatabaseDescriptor) {p : Nat}
    (hp : p < h.cells.length) : (h.alloc d).2.read p = h.read p := by
  simp only [Heap.alloc, Heap.read]
  exact List.getD_append _ _ _ _ hp

theorem Heap.read_write_ne (h : Heap) (a : Nat) (d : Dbdesc.DatabaseDescriptor)
    {p : Nat} (hne : a ≠ p) : (h.write a d).read p = h.read p := by
  simp only [Heap.write, Heap.read, List.getD_eq_getD_get?, List.get?_eq_getElem?]
  rw [List.getElem?_set_ne hne]

theorem Heap.length_alloc (h : Heap) (d : Dbdesc.DatabaseDescriptor) :
    (h.alloc d).2.cells.length = h.cells.length + 1 := by
  simp [Heap.alloc]

theorem Heap.length_write (h : Heap) (a : Nat) (d : Dbdesc.DatabaseDescriptor) :
    (h.write a d).cells.length = h.cells.length := by
  simp [Heap.write]

end DbdescHeap

namespace Truncate

theorem findSome?_of_mem_isSome {f : Mutation → Option RejectReason}
    {q : List Mutation} (h : ∃ m ∈ q, (f m).isSome) :
    (q.findSome? f).isSome := by
  induction q with
  | nil => simp at h
  | cons a t ih =>
      obtain ⟨m, hmem, hsome⟩ := h
      cases hf : f a with
      | some r => simp [List.findSome?, hf]
      | none =>
          simp only [List.findSome?, hf]
          rcases List.mem_cons.mp hmem with h1 | h1
          · subst h1
            rw [hf] at hsome
            simp at hsome
          · exact ih ⟨m, h1, hsome⟩

theorem findSome?_first {f : Mutation → Option RejectReason}
    {q₁ : List Mutation} {m : Mutation} {q₂ : List Mutation} {r : RejectReason}
    (hq : ∀ m2 ∈ q₁, f m2 = none) (hm : f m = some r) :
    ((q₁ ++ m :: q₂).findSome? f) = some r := by
  induction q₁ with
  | nil => simp [List.findSome?, hm]
  | cons a t ih =>
      have ha : f a = none := hq a (by simp)
      simp only [List.cons_append, List.findSome?, ha]
      exact ih fun m2 hmem => hq m2 (by simp [hmem])

/-- C1: for every pending mutation, the classifier returns exactly the
decision of the spec's table: Allow for any index addition, any column
addition, and any column drop whose only cross-object edges are used or
owned sequences; Reject with the matching category for an index drop, a
column drop depending on another object, a primary key change, and any
FOREIGN_KEY or CHECK constraint change. The case analysis covers every
mutation kind. -/
theorem classifyMutation_matches_spec_table (m : Mutation) :
    (∀ n, m.element = .index n → m.direction = .add →
      classifyMutation m = none) ∧
    (∀ n, m.element = .index n → m.direction = .drop →
      classifyMutation m = some .indexesBeingDropped) ∧
    (∀ n u o dep, m.element = .column n u o dep → m.direction = .drop →
      dep ≠ [] →
      classifyMutation m = some (.droppedColumnDependsOnObject n)) ∧
    (∀ n u o, m.element = .column n u o [] → classifyMutation m = none) ∧
    (∀ n u o dep, m.element = .column n u o dep → m.direction = .add →
      classifyMutation m = none) ∧
    (m.element = .primaryKeySwap →
      classifyMutation m = some .ongoingPrimaryKeyChange) ∧
    (∀ n v s, m.element = .constraint n .foreignKey v s →
      classifyMutation m = some (.ongoingConstraintChange .foreignKey)) ∧
    (∀ n v s, m.element = .constraint n .check v s →
      classifyMutation m = some (.ongoingConstraintChange .check)) := by
  refine ⟨?_, ?_, ?_, ?_, ?_, ?_, ?_, ?_⟩
  · intro n he hd
    simp [classifyMutation, he, hd]
  · intro n he hd
    simp [classifyMutation, he, hd]
  · intro n u o dep he hd hne
    simp [classifyMutation, he, hd, hne]
  · intro n u o he
    simp [classifyMutation, he]
  · intro n u o dep he hd
    simp [classifyMutation, he, hd]
  · intro he
    simp [classifyMutation, he]
  · intro n v s he
    simp [classifyMutation, he]
  · intro n v s he
    simp [classifyMutation, he]

/-- C1 witness: concrete instances of three of the table's rows. -/
theorem classifyMutation_matches_spec_table_witness :
    classifyMutation ⟨.add, .index "idx", .backfilling, 1⟩ = none ∧
    classifyMutation ⟨.drop, .index "idx", .deleteOnly, 2⟩ =
      some .indexesBeingDropped ∧
    classifyMutation ⟨.drop, .column "k" [] [] [9], .deleteOnly, 3⟩ =
      some (.droppedColumnDependsOnObject "k") ∧
    classifyMutation ⟨.drop, .column "j" [4] [5] [], .deleteOnly, 4⟩ = none :=
  ⟨(classifyMutation_matches_spec_table _).1 "idx" rfl rfl,
   (classifyMutation_matches_spec_table _).2.1 "idx" rfl rfl,
   (classifyMutation_matches_spec_table _).2.2.1 "k" [] [] [9] rfl rfl
     (by decide),
   (classifyMutation_matches_spec_table _).2.2.2.1 "j" [4] [5] rfl⟩

/-- C2: a queue containing a mutation of a rejecting kind is rejected as a
whole, and the classification picks the first disqualifying mutation in
queue order, deterministically for a fixed queue ordering. -/
theorem checkTable_rejects_first_disqualifier :
    (∀ q : List Mutation, (∃ m ∈ q, (classifyMutation m).isSome) →
      (checkTableForDisallowedMutations q).isSome) ∧
    (∀ (q₁ : List Mutation) (m : Mutation) (q₂ : List Mutation)
        (r : RejectReason),
      (∀ m2 ∈ q₁, classifyMutation m2 = none) →
      classifyMutation m = some r →
      checkTableForDisallowedMutations (q₁ ++ m :: q₂) = some r) := by
  constructor
  · intro q h
    exact findSome?_of_mem_isSome h
  · intro q₁ m q₂ r hq hm
    exact findSome?_first hq hm

/-- C2 witness: a queue mixing an allowed column addition with a drop of
an index and a primary key change is rejected with the first disqualifier,
the index drop. -/
theorem checkTable_rejects_first_disqualifier_witness :
    checkTableForDisallowedMutations
      [⟨.add, .column "k" [] [] [], .deleteOnly, 1⟩,
       ⟨.drop, .index "idx", .deleteOnly, 2⟩,
       ⟨.add, .primaryKeySwap, .backfilling, 3⟩] =
      some .indexesBeingDropped :=
  checkTable_rejects_first_disqualifier.2
    [⟨.add, .column "k" [] [] [], .deleteOnly, 1⟩]
    ⟨.drop, .index "idx", .deleteOnly, 2⟩
    [⟨.add, .primaryKeySwap, .backfilling, 3⟩]
    .indexesBeingDropped (by decide) (by decide)

/-- C3: every rejection carries exactly one reason category, is surfaced
in the unimplemented ("unsupported configuration") error class, and its
message interpolates the table name and, for a dependent column, the
column name; a self-referencing and a cross-table foreign key mid-addition
yield the identical FOREIGN_KEY category. -/
theorem reject_error_shape :
    (∀ (t : String) (m : Mutation) (r : RejectReason),
      classifyMutation m = some r →
      rejectClass r = .unimplemented ∧
      rejectClass r ≠ .internalFault ∧
      (∃ pre post, errorMessage t r = pre ++ t ++ post) ∧
      (∀ c, r = .droppedColumnDependsOnObject c →
        ∃ pre mid post, errorMessage t r = pre ++ t ++ mid ++ c ++ post) ∧
      (∀ r2, classifyMutation m = some r2 → r2 = r)) ∧
    (∀ (n₁ n₂ : String) (v₁ v₂ : Bool) (st₁ st₂ : MutationState)
        (j₁ j₂ : Nat),
      classifyMutation ⟨.add, .constraint n₁ .foreignKey v₁ true, st₁, j₁⟩ =
        some (.ongoingConstraintChange .foreignKey) ∧
      classifyMutation ⟨.add, .constraint n₂ .foreignKey v₂ false, st₂, j₂⟩ =
        some (.ongoingConstraintChange .foreignKey)) := by
  constructor
  · intro t m r hm
    refine ⟨rfl, by simp [rejectClass], ?_, ?_, ?_⟩
    · cases r with
      | indexesBeingDropped =>
          exact ⟨"cannot perform TRUNCATE on \"",
            "\" which has indexes being dropped", rfl⟩
      | droppedColumnDependsOnObject c =>
          refine ⟨"cannot perform TRUNCATE on \"",
            "\" which has a column (\"" ++ c ++
              "\") being dropped which depends on another object", ?_⟩
          simp [errorMessage, String.append_assoc]
      | ongoingPrimaryKeyChange =>
          exact ⟨"cannot perform TRUNCATE on \"",
            "\" which has an ongoing primary key change", rfl⟩
      | ongoingConstraintChange kind =>
          refine ⟨"cannot perform TRUNCATE on \"",
            "\" which has an ongoing " ++ constraintKindName kind ++
              " constraint change", ?_⟩
          simp [errorMessage, String.append_assoc]
    · intro c hc
      subst hc
      exact ⟨"cannot perform TRUNCATE on \"",
        "\" which has a column (\"",
        "\") being dropped which depends on another object", rfl⟩
    · intro r2 hr2
      rw [hm] at hr2
      exact (Option.some_inj.mp hr2).symm
  · intro n₁ n₂ v₁ v₂ st₁ st₂ j₁ j₂
    exact ⟨rfl, rfl⟩

/-- C3 witness: the dependent-column rejection at concrete inputs, with
its interpolated message, class and category. -/
theorem reject_error_shape_witness :
    rejectClass (.droppedColumnDependsOnObject "k") = .unimplemented ∧
    rejectClass (.droppedColumnDependsOnObject "k") ≠ .internalFault ∧
    (∃ pre post,
      errorMessage "t" (.droppedColumnDependsOnObject "k") =
        pre ++ "t" ++ post) ∧
    (∀ c, RejectReason.droppedColumnDependsOnObject "k" =
        .droppedColumnDependsOnObject c →
      ∃ pre mid post,
        errorMessage "t" (.droppedColumnDependsOnObject "k") =
          pre ++ "t" ++ mid ++ c ++ post) ∧
    (∀ r2,
      classifyMutation ⟨.drop, .column "k" [] [] [9], .deleteOnly, 3⟩ =
        some r2 →
      r2 = .droppedColumnDependsOnObject "k") :=
  reject_error_shape.1 "t" ⟨.drop, .column "k" [] [] [9], .deleteOnly, 3⟩
    (.droppedColumnDependsOnObject "k") (by decide)

/-- C4: a rejected TRUNCATE returns the classifier's reason and leaves the
table state untouched: same row count, same mutation queue, same jobs; and
a release of the blocked job afterwards completes exactly as it would have
without the truncation attempt. -/
theorem rejected_truncate_no_side_effect (st : TableState) (r : RejectReason)
    (h : checkTableForDisallowedMutations st.mutations = some r) :
    truncateTable st = (some r, st) ∧
    (truncateTable st).2.rows = st.rows ∧
    (truncateTable st).2.mutations = st.mutations ∧
    (truncateTable st).2.jobs = st.jobs ∧
    completeFirstMutation (truncateTable st).2 = completeFirstMutation st := by
  simp [truncateTable, h]

/-- C4 witness: the drop-index scenario of the test: a populated table with
a paused index-drop mutation; TRUNCATE is rejected and nothing changes. -/
theorem rejected_truncate_no_side_effect_witness :
    truncateTable
      { name := "t", rows := 100, generation := 0,
        mutations := [⟨.drop, .index "idx", .deleteOnly, 1⟩],
        jobs := [⟨1, .paused⟩] } =
      (some .indexesBeingDropped,
       { name := "t", rows := 100, generation := 0,
         mutations := [⟨.drop, .index "idx", .deleteOnly, 1⟩],
         jobs := [⟨1, .paused⟩] }) :=
  (rejected_truncate_no_side_effect
    { name := "t", rows := 100, generation := 0,
      mutations := [⟨.drop, .index "idx", .deleteOnly, 1⟩],
      jobs := [⟨1, .paused⟩] }
    .indexesBeingDropped (by decide)).1

end Truncate

namespace Dbdesc

theorem filter_self_idem {α : Type} (p : α → Bool) (l : List α) :
    (l.filter p).filter p = l.filter p := by
  induction l with
  | nil => rfl
  | cons a t ih =>
      by_cases h : p a <;> simp [List.filter_cons, h, ih]

theorem fixSuperUser_idem (u : UserPrivileges) :
    fixSuperUser (fixSuperUser u) = fixSuperUser u := by
  by_cases h : u.userProto = "root" ∨ u.userProto = "admin" <;>
    simp [fixSuperUser, h]

theorem fixSuperUser_comp :
    fixSuperUser ∘ fixSuperUser = fixSuperUser :=
  funext fixSuperUser_idem

theorem maybeFixPrivileges_flag (po : Option PrivilegeDescriptor) :
    (maybeFixPrivileges po).2 = false ↔ (maybeFixPrivileges po).1 = po := by
  cases po with
  | none => simp [maybeFixPrivileges]
  | some pd =>
      simp only [maybeFixPrivileges, decide_eq_false_iff_not, not_not,
        Option.some.injEq]

theorem maybeFixPrivileges_idem (po : Option PrivilegeDescriptor) :
    maybeFixPrivileges (maybeFixPrivileges po).1 =
      ((maybeFixPrivileges po).1, false) := by
  cases po with
  | none => simp [maybeFixPrivileges]
  | some pd => simp [maybeFixPrivileges, List.map_map, fixSuperUser_comp]

theorem maybeRemove_privileges (d : DatabaseDescriptor) :
    (maybeRemoveDroppedSelfEntryFromSchemas d).1.privileges = d.privileges := by
  simp [maybeRemoveDroppedSelfEntryFromSchemas]

theorem maybeRemove_flag (d : DatabaseDescriptor) :
    (maybeRemoveDroppedSelfEntryFromSchemas d).2 = false ↔
      (maybeRemoveDroppedSelfEntryFromSchemas d).1 = d := by
  obtain ⟨n, i, v, pr, dp, sch, rc⟩ := d
  simp only [maybeRemoveDroppedSelfEntryFromSchemas,
    decide_eq_false_iff_not, not_not, DatabaseDescriptor.mk.injEq]
  tauto

theorem maybeRemove_idem (d : DatabaseDescriptor) :
    maybeRemoveDroppedSelfEntryFromSchemas
        (maybeRemoveDroppedSelfEntryFromSchemas d).1 =
      ((maybeRemoveDroppedSelfEntryFromSchemas d).1, false) := by
  obtain ⟨n, i, v, pr, dp, sch, rc⟩ := d
  simp only [maybeRemoveDroppedSelfEntryFromSchemas, filter_self_idem,
    Prod.mk.injEq, DatabaseDescriptor.mk.injEq, decide_eq_false_iff_not,
    not_not]
  tauto

theorem postDeserialization_flag (d : DatabaseDescriptor) :
    (postDeserialization d).2 = false ↔ (postDeserialization d).1 = d := by
  obtain ⟨n, i, v, pr, dp, sch, rc⟩ := d
  cases pr with
  | none =>
      simp only [postDeserialization, maybeFixPrivileges,
        maybeRemoveDroppedSelfEntryFromSchemas, Bool.false_or,
        decide_eq_false_iff_not, not_not, DatabaseDescriptor.mk.injEq]
      tauto
  | some pd =>
      simp only [postDeserialization, maybeFixPrivileges,
        maybeRemoveDroppedSelfEntryFromSchemas, Bool.or_eq_false_iff,
        decide_eq_false_iff_not, not_not, DatabaseDescriptor.mk.injEq,
        Option.some.injEq]
      tauto

theorem postDeserialization_idem (d : DatabaseDescriptor) :
    postDeserialization (postDeserialization d).1 =
      ((postDeserialization d).1, false) := by
  obtain ⟨n, i, v, pr, dp, sch, rc⟩ := d
  cases pr with
  | none =>
      simp [postDeserialization, maybeFixPrivileges,
        maybeRemoveDroppedSelfEntryFromSchemas, filter_self_idem]
  | some pd =>
      simp [postDeserialization, maybeFixPrivileges,
        maybeRemoveDroppedSelfEntryFromSchemas, filter_self_idem,
        List.map_map, fixSuperUser_comp]

theorem runPost_eq (d : DatabaseDescriptor) :
    RunPostDeserializationChanges (NewBuilder d) =
      { original := d, maybeModified := some (postDeserialization d).1,
        changed := (postDeserialization d).2 } := rfl

/-- C5: after the fixup pass, the existing-mutable view carries the
pre-fixup clone of the input as its ClusterVersion baseline, and the
immutable view is the fixed-up state — which coincides with the original
input whenever the fixups changed nothing. -/
theorem build_views_after_fixups (d : DatabaseDescriptor) :
    (BuildExistingMutableDatabase
        (RunPostDeserializationChanges (NewBuilder d))).1.ClusterVersion =
      some d ∧
    BuildImmutableDatabase (RunPostDeserializationChanges (NewBuilder d)) =
      (postDeserialization d).1 ∧
    ((RunPostDeserializationChanges (NewBuilder d)).changed = false →
      BuildImmutableDatabase (RunPostDeserializationChanges (NewBuilder d)) =
        d) := by
  refine ⟨rfl, rfl, fun h => ?_⟩
  have h2 : (postDeserialization d).2 = false := h
  exact (postDeserialization_flag d).mp h2

/-- C5 witness: a descriptor the fixups leave unchanged: the baseline is
the input and the immutable view equals the input. -/
theorem build_views_after_fixups_witness :
    (BuildExistingMutableDatabase
        (RunPostDeserializationChanges
          (NewBuilder ⟨"db", 50, 3, none, none, [], none⟩))).1.ClusterVersion =
      some ⟨"db", 50, 3, none, none, [], none⟩ ∧
    BuildImmutableDatabase
        (RunPostDeserializationChanges
          (NewBuilder ⟨"db", 50, 3, none, none, [], none⟩)) =
      ⟨"db", 50, 3, none, none, [], none⟩ :=
  ⟨(build_views_after_fixups ⟨"db", 50, 3, none, none, [], none⟩).1,
   (build_views_after_fixups ⟨"db", 50, 3, none, none, [], none⟩).2.2 rfl⟩

/-- C6: the post-deserialization fixup pass is idempotent: running the
builder over an already fixed-up descriptor reproduces it exactly, reports
changed = false, and re-encodes to the identical output. -/
theorem fixups_idempotent (d : DatabaseDescriptor) :
    BuildImmutableDatabase
        (RunPostDeserializationChanges
          (NewBuilder
            (BuildImmutableDatabase
              (RunPostDeserializationChanges (NewBuilder d))))) =
      BuildImmutableDatabase (RunPostDeserializationChanges (NewBuilder d)) ∧
    (RunPostDeserializationChanges
        (NewBuilder
          (BuildImmutableDatabase
            (RunPostDeserializationChanges (NewBuilder d))))).changed =
      false ∧
    encode
        (BuildImmutableDatabase
          (RunPostDeserializationChanges
            (NewBuilder
              (BuildImmutableDatabase
                (RunPostDeserializationChanges (NewBuilder d)))))) =
      encode
        (BuildImmutableDatabase
          (RunPostDeserializationChanges (NewBuilder d))) := by
  have h1 : BuildImmutableDatabase
      (RunPostDeserializationChanges (NewBuilder d)) =
      (postDeserialization d).1 := rfl
  have h2 := postDeserialization_idem d
  refine ⟨?_, ?_, ?_⟩
  · show (postDeserialization (postDeserialization d).1).1 =
      (postDeserialization d).1
    rw [h2]
  · show (postDeserialization (postDeserialization d).1).2 = false
    rw [h2]
  · show encode (postDeserialization (postDeserialization d).1).1 =
      encode (postDeserialization d).1
    rw [h2]

end Dbdesc

namespace Dbdesc

/-- C7 counterexample: a migration work function failing with "boom" does
not get its error returned by RunMigrationChanges — the claim that the
error is surfaced unchanged is false at this input. -/
theorem runMigrationChanges_drops_error :
    ¬ (RunMigrationChanges (NewBuilder ⟨"db", 51, 3, none, none, [], none⟩)
        [fun ddb => (ddb, some "boom")]).2 = some "boom" := by
  simp [RunMigrationChanges]

/-- C7 (amended): RunMigrationChanges applies every migration work
function in order, never aborts early, and always returns nil — a work
function's error is neither consulted nor surfaced. -/
theorem runMigrationChanges_always_nil (b : Builder)
    (workFuncs : List MigrationWorkFunc) :
    (RunMigrationChanges b workFuncs).2 = none ∧
    (RunMigrationChanges b workFuncs).1 =
      workFuncs.foldl (fun ddb applyChange => (applyChange ddb).1) b :=
  ⟨rfl, rfl⟩

theorem flag_true_iff_ne {α : Type} {p : Bool} {x y : α}
    (h : p = false ↔ x = y) : p = true ↔ x ≠ y := by
  cases p <;> simp_all

theorem maybeUpdateGrantOptions_flag (po : Option PrivilegeDescriptor) :
    (maybeUpdateGrantOptions po).2 = false ↔
      (maybeUpdateGrantOptions po).1 = po := by
  cases po with
  | none => simp [maybeUpdateGrantOptions]
  | some pd =>
      simp only [maybeUpdateGrantOptions, decide_eq_false_iff_not, not_not,
        Option.some.injEq]

theorem set_privileges_eq_iff (d : DatabaseDescriptor)
    (po : Option PrivilegeDescriptor) :
    ({ d with privileges := po } = d) ↔ po = d.privileges := by
  obtain ⟨n, i, v, pr, dp, sch, rc⟩ := d
  simp only [DatabaseDescriptor.mk.injEq]
  tauto

/-- C8: the builder's changed flag is true exactly when the built
descriptor state differs from the original input — both right after the
fixup pass and after the grant-option migration re-derives the working
copy — so a caller persisting a rewrite exactly when changed is true
rewrites exactly the altered descriptors. -/
theorem changed_iff_altered (d : DatabaseDescriptor) :
    ((RunPostDeserializationChanges (NewBuilder d)).changed = true ↔
      BuildImmutableDatabase (RunPostDeserializationChanges (NewBuilder d)) ≠
        d) ∧
    (((RunMigrationChanges (RunPostDeserializationChanges (NewBuilder d))
          [MaybeAddGrantOptionsDatabase]).1).changed = true ↔
      BuildImmutableDatabase
          ((RunMigrationChanges (RunPostDeserializationChanges (NewBuilder d))
            [MaybeAddGrantOptionsDatabase]).1) ≠ d) := by
  constructor
  · exact flag_true_iff_ne (postDeserialization_flag d)
  · exact flag_true_iff_ne
      ((maybeUpdateGrantOptions_flag d.privileges).trans
        (set_privileges_eq_iff d (maybeUpdateGrantOptions d.privileges).1).symm)

/-- C8 witness: a descriptor whose root entry is missing privileges: the
fixups change it, changed is true, and the built state differs from the
input. -/
theorem changed_iff_altered_witness :
    BuildImmutableDatabase
        (RunPostDeserializationChanges
          (NewBuilder
            ⟨"db", 52, 1, some ⟨[⟨"root", 0, 0⟩], "o", 2⟩, none, [], none⟩)) ≠
      ⟨"db", 52, 1, some ⟨[⟨"root", 0, 0⟩], "o", 2⟩, none, [], none⟩ :=
  (changed_iff_altered
    ⟨"db", 52, 1, some ⟨[⟨"root", 0, 0⟩], "o", 2⟩, none, [], none⟩).1.mp
    (by decide)

theorem applyNewInitialOption_version (d : DatabaseDescriptor)
    (o : NewInitialOption) :
    (applyNewInitialOption d o).version = d.version := by
  cases o with
  | maybeWithDatabaseRegionConfig rc => cases rc <;> rfl
  | withPublicSchemaID sid =>
      by_cases h : sid = keysPublicSchemaID <;> simp [applyNewInitialOption, h]

theorem foldl_options_version (options : List NewInitialOption)
    (d : DatabaseDescriptor) :
    (options.foldl applyNewInitialOption d).version = d.version := by
  induction options generalizing d with
  | nil => rfl
  | cons o rest ih => rw [List.foldl_cons, ih, applyNewInitialOption_version]

/-- C10: a freshly created descriptor always starts at version 1 with no
persisted ClusterVersion baseline, whatever id, name, owner and options
NewInitial receives. -/
theorem newInitial_fresh (id : Nat) (name owner : String)
    (options : List NewInitialOption) :
    (NewInitial id name owner options).desc.version = 1 ∧
    (NewInitial id name owner options).ClusterVersion = none := by
  refine ⟨?_, rfl⟩
  exact foldl_options_version options
    { name := name, id := id, version := 1,
      privileges := some (NewBaseDatabasePrivilegeDescriptor owner),
      defaultPrivileges := some (MakeDefaultPrivilegeDescriptor 0),
      schemas := [], regionConfig := none }

end Dbdesc

namespace DbdescHeap

theorem NewBuilder_spec (h : Heap) (q : Nat) {p : Nat}
    (hp : p < h.cells.length) :
    (NewBuilder h q).2.read p = h.read p ∧
    h.cells.length ≤ (NewBuilder h q).2.cells.length ∧
    (NewBuilder h q).1.original = h.cells.length ∧
    (NewBuilder h q).1.maybeModified = none := by
  refine ⟨Heap.read_alloc h _ hp, ?_, rfl, rfl⟩
  rw [show (NewBuilder h q).2 = (h.alloc (h.read q)).2 from rfl,
    Heap.length_alloc]
  omega

theorem RunPost_spec (h : Heap) (b : Builder) {p : Nat}
    (hp : p < h.cells.length) :
    (RunPostDeserializationChanges h b).2.read p = h.read p ∧
    h.cells.length ≤ (RunPostDeserializationChanges h b).2.cells.length ∧
    (RunPostDeserializationChanges h b).1.original = b.original ∧
    (RunPostDeserializationChanges h b).1.maybeModified =
      some h.cells.length := by
  have hne : (h.alloc (h.read b.original)).1 ≠ p := by
    show h.cells.length ≠ p
    omega
  refine ⟨?_, ?_, rfl, rfl⟩
  · show (((h.alloc (h.read b.original)).2).write
        ((h.alloc (h.read b.original)).1) _).read p = h.read p
    rw [Heap.read_write_ne _ _ _ hne]
    exact Heap.read_alloc h _ hp
  · show h.cells.length ≤ (((h.alloc (h.read b.original)).2).write
        ((h.alloc (h.read b.original)).1) _).cells.length
    rw [Heap.length_write, Heap.length_alloc]
    omega

theorem MaybeAddGrant_spec (h : Heap) (b : Builder) {p : Nat}
    (hp : p < h.cells.length) :
    (MaybeAddGrantOptionsDatabase h b).2.read p = h.read p ∧
    h.cells.length ≤ (MaybeAddGrantOptionsDatabase h b).2.cells.length ∧
    (MaybeAddGrantOptionsDatabase h b).1.original = b.original ∧
    (MaybeAddGrantOptionsDatabase h b).1.maybeModified =
      some h.cells.length := by
  have hne : (h.alloc (h.read b.original)).1 ≠ p := by
    show h.cells.length ≠ p
    omega
  refine ⟨?_, ?_, rfl, rfl⟩
  · show (((h.alloc (h.read b.original)).2).write
        ((h.alloc (h.read b.original)).1) _).read p = h.read p
    rw [Heap.read_write_ne _ _ _ hne]
    exact Heap.read_alloc h _ hp
  · show h.cells.length ≤ (((h.alloc (h.read b.original)).2).write
        ((h.alloc (h.read b.original)).1) _).cells.length
    rw [Heap.length_write, Heap.length_alloc]
    omega

theorem BuildExisting_spec (h : Heap) (b : Builder) {p : Nat}
    (hp : p < h.cells.length) :
    (BuildExistingMutableDatabase h b).2.2.read p = h.read p ∧
    (BuildExistingMutableDatabase h b).2.1.original = b.original ∧
    (∀ a, (BuildExistingMutableDatabase h b).2.1.maybeModified = some a →
      b.maybeModified = some a ∨ a = h.cells.length) := by
  cases hm : b.maybeModified with
  | some m =>
      have he : BuildExistingMutableDatabase h b =
          ({ desc := h.read m, ClusterVersion := some (h.read b.original),
             changed := b.changed }, b, h) := by
        simp only [BuildExistingMutableDatabase, hm]
      rw [he]
      exact ⟨rfl, rfl, fun a ha => Or.inl (hm.symm.trans ha)⟩
  | none =>
      have he : BuildExistingMutableDatabase h b =
          ({ desc := (clone h b.original).2.read (clone h b.original).1,
             ClusterVersion :=
               some ((clone h b.original).2.read b.original),
             changed := b.changed },
           { b with maybeModified := some (clone h b.original).1 },
           (clone h b.original).2) := by
        simp only [BuildExistingMutableDatabase, hm]
      rw [he]
      refine ⟨Heap.read_alloc h _ hp, rfl, fun a ha => Or.inr ?_⟩
      exact (Option.some_inj.mp ha).symm

/-- C9: the builder never mutates or aliases the caller's descriptor: over
the whole pipeline — NewBuilder's clone, the fixup pass, the grant-option
migration and building the existing-mutable view — the caller's heap cell
keeps its value, and the builder's original and working cells are fresh
addresses distinct from the caller's. -/
theorem builder_preserves_caller_input (h : Heap) (p : Nat)
    (hp : p < h.cells.length) :
    (buildPipeline h p).2.2.read p = h.read p ∧
    (buildPipeline h p).2.1.original ≠ p ∧
    (∀ a, (buildPipeline h p).2.1.maybeModified = some a → a ≠ p) := by
  obtain ⟨r1, l1, o1, -⟩ := NewBuilder_spec h p hp
  have hp1 : p < (NewBuilder h p).2.cells.length := lt_of_lt_of_le hp l1
  obtain ⟨r2, l2, o2, -⟩ :=
    RunPost_spec (NewBuilder h p).2 (NewBuilder h p).1 hp1
  have hp2 : p < (RunPostDeserializationChanges (NewBuilder h p).2
      (NewBuilder h p).1).2.cells.length := lt_of_lt_of_le hp1 l2
  obtain ⟨r3, l3, o3, mm3⟩ :=
    MaybeAddGrant_spec
      (RunPostDeserializationChanges (NewBuilder h p).2 (NewBuilder h p).1).2
      (RunPostDeserializationChanges (NewBuilder h p).2 (NewBuilder h p).1).1
      hp2
  have hp3 : p < (MaybeAddGrantOptionsDatabase
      (RunPostDeserializationChanges (NewBuilder h p).2 (NewBuilder h p).1).2
      (RunPostDeserializationChanges (NewBuilder h p).2
        (NewBuilder h p).1).1).2.cells.length := lt_of_lt_of_le hp2 l3
  obtain ⟨r4, o4, mm4⟩ :=
    BuildExisting_spec
      (MaybeAddGrantOptionsDatabase
        (RunPostDeserializationChanges (NewBuilder h p).2 (NewBuilder h p).1).2
        (RunPostDeserializationChanges (NewBuilder h p).2
          (NewBuilder h p).1).1).2
      (MaybeAddGrantOptionsDatabase
        (RunPostDeserializationChanges (NewBuilder h p).2 (NewBuilder h p).1).2
        (RunPostDeserializationChanges (NewBuilder h p).2
          (NewBuilder h p).1).1).1
      hp3
  refine ⟨?_, ?_, ?_⟩
  · show (buildPipeline h p).2.2.read p = h.read p
    simp only [buildPipeline]
    rw [r4, r3, r2, r1]
  · simp only [buildPipeline]
    rw [o4, o3, o2, o1]
    omega
  · simp only [buildPipeline]
    intro a ha
    rcases mm4 a ha with hcase | hcase
    · rw [mm3] at hcase
      have ha2 : (RunPostDeserializationChanges (NewBuilder h p).2
          (NewBuilder h p).1).2.cells.length = a := Option.some_inj.mp hcase
      omega
    · omega

/-- C9 witness: a two-cell heap; the pipeline over the first cell leaves
it intact and the builder's addresses avoid it. -/
theorem builder_preserves_caller_input_witness :
    (buildPipeline ⟨[⟨"db", 50, 3, none, none, [], none⟩,
        ⟨"other", 51, 7, none, none, [], none⟩]⟩ 0).2.2.read 0 =
      Heap.read ⟨[⟨"db", 50, 3, none, none, [], none⟩,
        ⟨"other", 51, 7, none, none, [], none⟩]⟩ 0 ∧
    (buildPipeline ⟨[⟨"db", 50, 3, none, none, [], none⟩,
        ⟨"other", 51, 7, none, none, [], none⟩]⟩ 0).2.1.original ≠ 0 ∧
    (∀ a, (buildPipeline ⟨[⟨"db", 50, 3, none, none, [], none⟩,
        ⟨"other", 51, 7, none, none, [], none⟩]⟩ 0).2.1.maybeModified =
        some a → a ≠ 0) :=
  builder_preserves_caller_input
    ⟨[⟨"db", 50, 3, none, none, [], none⟩,
      ⟨"other", 51, 7, none, none, [], none⟩]⟩ 0 (by decide)

end DbdescHeap
